import Mathlib

/-!
Verification development for the WhatsApp-Bitrix24 campaign dispatcher.

The definitions below are a shallow embedding of the repository's core:
the durable work queue (`src/lib/queue.js`), the dispatch worker tick
(`src/worker.js`), the delivery-window check and template send client
(`src/lib/wa.js`), phone normalization (`src/lib/phone.js`), campaign
creation (`src/server.js`) and the webhook status reconciler
(`src/server.js`, `POST /webhooks/wa`).

Database tables are embedded as Lean lists of rows in rowid order;
`ORDER BY id ASC` is embedded as an explicit stable sort on the id field.
SQL `UPDATE ... WHERE id=?` is embedded as a `List.map` that rewrites the
matching rows.  JavaScript epoch-millisecond timestamps are `Nat`.
-/

namespace WaB24

/-- Queue entry status, column `queue.status`: `queued|processing|done|failed`. -/
inductive QStatus where
  | queued
  | processing
  | done
  | failed
deriving DecidableEq, Repr

/-- One row of the `queue` table (schema.sql): campaign ref, target ref,
sender phone id, earliest-eligible epoch ms, attempt count, status. -/
structure QueueEntry where
  id : Nat
  campaign_id : Nat
  target_id : Nat
  phone_id : String
  available_at : Nat
  attempts : Nat
  status : QStatus
deriving DecidableEq, Repr

/-- The SQL predicate `status='queued' AND available_at<=?` of `fetchBatch`. -/
def eligibleEntry (now : Nat) (e : QueueEntry) : Bool :=
  e.status == QStatus.queued && e.available_at ≤ now

/-- `ORDER BY id ASC` on a list of queue rows (a stable sort, structural
so that the kernel can evaluate it). -/
def sortById (l : List QueueEntry) : List QueueEntry :=
  l.insertionSort (fun a b => a.id ≤ b.id)

/-- `fetchBatch({limit})` from `src/lib/queue.js`: inside one transaction,
`SELECT ... WHERE status='queued' AND available_at<=? ORDER BY id ASC LIMIT ?`
then `UPDATE queue SET status='processing' WHERE id=?` for each selected id.
Returns the selected rows and the updated table. -/
def fetchBatch (now limit : Nat) (q : List QueueEntry) :
    List QueueEntry × List QueueEntry :=
  let rows := (sortById (q.filter (eligibleEntry now))).take limit
  (rows,
   q.map (fun e =>
     if rows.any (fun r => r.id == e.id) then { e with status := QStatus.processing }
     else e))

/-- `markDone(id)` from `src/lib/queue.js`: `UPDATE queue SET status='done' WHERE id=?`. -/
def markDone (id : Nat) (q : List QueueEntry) : List QueueEntry :=
  q.map (fun e => if e.id == id then { e with status := QStatus.done } else e)

/-- `markFailed(id, backoffMs)` from `src/lib/queue.js`: reads the row's
attempt count, increments it, computes `available_at = now + backoffMs *
min(attempts, 10)` and requeues the row. -/
def markFailed (now backoffMs id : Nat) (q : List QueueEntry) : List QueueEntry :=
  let attempts := (((q.find? (fun e => e.id == id)).map QueueEntry.attempts).getD 0) + 1
  let avail := now + backoffMs * min attempts 10
  q.map (fun e =>
    if e.id == id then
      { e with status := QStatus.queued, attempts := attempts, available_at := avail }
    else e)

/-- Target delivery status, column `campaign_targets.status`. -/
inductive TStatus where
  | queued
  | sending
  | sent
  | delivered
  | read
  | failed
  | canceled
deriving DecidableEq, Repr

/-- Campaign lifecycle status, column `campaigns.status`. -/
inductive CStatus where
  | draft
  | scheduled
  | running
  | paused
  | done
  | error
  | canceled
deriving DecidableEq, Repr

/-- One row of `campaigns` (schema.sql); fields not consulted by the
worker or reconciler (name, timestamps, meta) are omitted. -/
structure Campaign where
  id : Nat
  template_name : String
  language : String
  sender_phone_id : String
  status : CStatus
  total_targets : Nat
deriving DecidableEq, Repr

/-- One row of `campaign_targets` (schema.sql).  `vars_json` is embedded
already parsed, as the ordered key/value pairs of the JSON object (object
iteration order); values are embedded post-`String(v)` stringification. -/
structure Target where
  id : Nat
  campaign_id : Nat
  phone : String
  vars : List (String × String)
  status : TStatus
  last_error : Option String
  wa_message_id : Option String
  updated_at : Nat
deriving DecidableEq, Repr

/-- The provider response body of a template send, `res.data` in
`src/lib/wa.js`: `{ messages: [{ id: 'wamid...' }] }` — each message's
`id` may be absent (`none`) or present. -/
structure SendResp where
  messages : List (Option String)
deriving DecidableEq, Repr

/-- One row of `messages` (schema.sql): immutable log of a send attempt. -/
structure MessageRec where
  campaign_id : Nat
  target_id : Nat
  bodyParams : List String
  result : SendResp
  created_at : Nat
deriving DecidableEq, Repr

/-- The payload the worker posts to the messaging API
(`sendTemplate` in `src/lib/wa.js`): sender phone id, recipient,
template name, language code and the rendered body parameter texts
(an empty list means no `body` component is included).  The JSON field
`to` is named `toPhone` here because `to` is reserved in Lean. -/
structure Payload where
  phone_id : String
  toPhone : String
  template_name : String
  language : String
  bodyParams : List String
deriving DecidableEq, Repr

/-- One row of `events` (schema.sql): raw inbound webhook payload log.
`payload` keeps the serialized event body opaque as a string. -/
structure EventRec where
  wa_message_id : Option String
  type : String
  payload : String
  created_at : Nat
deriving DecidableEq, Repr

/-- The relational store: tables touched by the worker and reconciler. -/
structure WorkerState where
  campaigns : List Campaign
  targets : List Target
  messages : List MessageRec
  events : List EventRec
  queue : List QueueEntry
deriving DecidableEq, Repr

/-- JS `String.prototype.split(sep)` on a character list, structural so
that the kernel can evaluate it (Lean's own `String.splitOn` uses
well-founded recursion).  `splitChar sep acc cs` scans `cs` with the
pending piece `acc` accumulated in reverse. -/
def splitChar (sep : Char) : List Char → List Char → List (List Char)
  | acc, [] => [acc.reverse]
  | acc, c :: cs =>
    if c == sep then acc.reverse :: splitChar sep [] cs
    else splitChar sep (c :: acc) cs

/-- The regex `^\d{7,15}$` (`isLikelyValidPhone` in `src/lib/phone.js`,
also inlined in the worker's phone check): 7 to 15 characters, all ASCII
digits. -/
def isLikelyValidPhone (phone : String) : Bool :=
  7 ≤ phone.length && phone.length ≤ 15 && phone.toList.all Char.isDigit

/-- JavaScript `Number(s)` on the pieces produced by `'HH:MM'.split(':')`:
the empty string coerces to `0`, a decimal digit string to its value,
anything else (including the JS `undefined` of a missing piece) to `NaN`,
embedded as `none`.  (Signs, blanks and decimal points never occur in a
window string and are not modelled.) -/
def jsNumber (cs : List Char) : Option Nat :=
  cs.foldl
    (fun acc c =>
      match acc with
      | none => none
      | some n => if c.isDigit then some (n * 10 + (c.toNat - 48)) else none)
    (some 0)

/-- `toMinutes` inside `inWindow` (`src/lib/wa.js`): split on `':'`,
destructure the first two pieces, `h * 60 + m`.  A missing minute piece
gives `NaN` (`none`); extra pieces are ignored, as in JS destructuring. -/
def toMinutes (hhmm : List Char) : Option Nat :=
  match splitChar ':' [] hhmm with
  | h :: m :: _ =>
    match jsNumber h, jsNumber m with
    | some hn, some mn => some (hn * 60 + mn)
    | _, _ => none
  | _ => none

/-- `inWindow(now, windowStr)` from `src/lib/wa.js`.  `now` enters as the
wall-clock hours and minutes (`now.getHours()`, `now.getMinutes()`).
An empty window string, or one whose start or end piece is empty/missing,
is always inside.  `NaN` comparison semantics of JS are reproduced: every
comparison against `NaN` is false. -/
def inWindow (hours minutes : Nat) (windowStr : String) : Bool :=
  if windowStr = "" then true
  else
    let parts := splitChar '-' [] windowStr.toList
    let start := parts.getD 0 []
    let stop := parts.getD 1 []
    if start.isEmpty || stop.isEmpty then true
    else
      let nowM := hours * 60 + minutes
      match toMinutes start, toMinutes stop with
      | some s, some e =>
        if s ≤ e then decide (s ≤ nowM ∧ nowM ≤ e)
        else decide (s ≤ nowM ∨ nowM ≤ e)
      | some s, none => decide (s ≤ nowM)
      | none, some e => decide (nowM ≤ e)
      | none, none => false

/-- Worker configuration picked up from the environment in `src/worker.js`:
batch size, delivery window string, default template language, the epoch
milliseconds of this tick (`Date.now()`) and its wall-clock hours/minutes. -/
structure WorkerCfg where
  batchSize : Nat
  window : String
  defaultLang : String
  now : Nat
  hours : Nat
  minutes : Nat
deriving Repr

/-- The campaign-status gate of the worker tick:
`['paused','canceled','done','error'].includes(camp.status)`. -/
def blockedCampaign (s : CStatus) : Bool :=
  s == CStatus.paused || s == CStatus.canceled || s == CStatus.done || s == CStatus.error

/-- `UPDATE campaign_targets SET ... WHERE id=?`: rewrite the rows whose
`id` matches. -/
def updateTargetRows (id : Nat) (f : Target → Target) (ts : List Target) : List Target :=
  ts.map (fun t => if t.id == id then f t else t)

/-- `const wa_id = resp?.messages?.[0]?.id || null` in the worker: the first
message's id, with every JS falsy value (absent message, absent id, empty
string) collapsing to `null`. -/
def waIdOf (resp : SendResp) : Option String :=
  match resp.messages.head? with
  | some (some s) => if s = "" then none else some s
  | _ => none

/-- `SELECT * FROM campaigns WHERE id=?` — first matching row. -/
def findCampaign (st : WorkerState) (id : Nat) : Option Campaign :=
  st.campaigns.find? (fun c => c.id == id)

/-- `SELECT * FROM campaign_targets WHERE id=?` — first matching row. -/
def findTarget (st : WorkerState) (id : Nat) : Option Target :=
  st.targets.find? (fun t => t.id == id)

/-- `SELECT * FROM campaign_targets WHERE wa_message_id=?` — the webhook
reconciler's lookup of a target by provider message id. -/
def findTargetByWaId (ts : List Target) (mid : String) : Option Target :=
  ts.find? (fun t => t.wa_message_id == some mid)

/-- The body of the worker tick's per-job loop (`src/worker.js`, `for
(const job of batch)`), for one claimed queue entry.  `provider` is the
external messaging API (`sendTemplate`): it receives the posted payload
and returns either the parsed response body or a thrown error message.
Returns the updated store plus the list of HTTP calls issued (empty or a
single payload). -/
def processJob (cfg : WorkerCfg) (provider : Payload → Except String SendResp)
    (st : WorkerState) (job : QueueEntry) : WorkerState × List Payload :=
  match findCampaign st job.campaign_id with
  | none => ({ st with queue := markDone job.id st.queue }, [])
  | some camp =>
    if blockedCampaign camp.status then
      ({ st with queue := markDone job.id st.queue }, [])
    else
      match findTarget st job.target_id with
      | none => ({ st with queue := markDone job.id st.queue }, [])
      | some target =>
        if !isLikelyValidPhone target.phone then
          ({ st with
              targets := updateTargetRows target.id
                (fun t => { t with status := TStatus.failed,
                                   last_error := some "telefono_invalido",
                                   updated_at := cfg.now }) st.targets,
              queue := markDone job.id st.queue }, [])
        else
          let st1 := { st with
            targets := updateTargetRows target.id
              (fun t => { t with status := TStatus.sending, updated_at := cfg.now })
              st.targets }
          let bodyParams := target.vars.map Prod.snd
          let payload : Payload := {
            phone_id := camp.sender_phone_id,
            toPhone := target.phone,
            template_name := camp.template_name,
            language := if camp.language = "" then cfg.defaultLang else camp.language,
            bodyParams := bodyParams }
          match provider payload with
          | Except.ok resp =>
            let wa_id := waIdOf resp
            let st2 := { st1 with
              messages := st1.messages ++
                [({ campaign_id := camp.id, target_id := target.id,
                    bodyParams := bodyParams, result := resp,
                    created_at := cfg.now } : MessageRec)],
              targets := updateTargetRows target.id
                (fun t => { t with status := TStatus.sent, wa_message_id := wa_id,
                                   updated_at := cfg.now }) st1.targets }
            ({ st2 with queue := markDone job.id st2.queue }, [payload])
          | Except.error msg =>
            ({ st1 with
                targets := updateTargetRows target.id
                  (fun t => { t with status := TStatus.failed,
                                     last_error := some (String.mk (msg.toList.take 500)),
                                     updated_at := cfg.now }) st1.targets,
                queue := markFailed cfg.now 3000 job.id st1.queue }, [payload])

/-- The end-of-tick convergence sweep (`src/worker.js` lines after the
batch loop): if no queue entry is outside `done`, every `running` campaign
with no target left in `queued|sending|failed` is flipped to `done`. -/
def sweep (st : WorkerState) : WorkerState :=
  if (st.queue.filter (fun e => !(e.status == QStatus.done))).length = 0 then
    { st with campaigns := st.campaigns.map (fun c =>
        if c.status == CStatus.running &&
           (st.targets.filter (fun t =>
              t.campaign_id == c.id &&
              (t.status == TStatus.queued || t.status == TStatus.sending ||
               t.status == TStatus.failed))).length = 0
        then { c with status := CStatus.done } else c) }
  else st

/-- One worker tick (`tick()` in `src/worker.js`): delivery-window gate,
batch claim, per-job processing in order, then the convergence sweep.
Returns the updated store and all provider calls issued this tick. -/
def tick (cfg : WorkerCfg) (provider : Payload → Except String SendResp)
    (st : WorkerState) : WorkerState × List Payload :=
  if !inWindow cfg.hours cfg.minutes cfg.window then (st, [])
  else
    let (batch, q') := fetchBatch cfg.now cfg.batchSize st.queue
    let st0 := { st with queue := q' }
    if batch.isEmpty then (st0, [])
    else
      let (st1, calls) := batch.foldl
        (fun (acc : WorkerState × List Payload) job =>
          let (st', cs) := processJob cfg provider acc.1 job
          (st', acc.2 ++ cs))
        (st0, [])
      (sweep st1, calls)

/-- JS `String.prototype.startsWith` on character lists, structural.
`beginsWith s pre` is true when `pre` is an initial run of `s`. -/
def beginsWith : List Char → List Char → Bool
  | _, [] => true
  | [], _ :: _ => false
  | c :: cs, p :: ps => c == p && beginsWith cs ps

/-- Strip every non-digit character, JS `replace(/[^0-9]/g, '')`. -/
def digitsOnly (s : List Char) : List Char :=
  s.filter Char.isDigit

/-- `normalizePhone(raw, { defaultCountryCode })` from `src/lib/phone.js`:
keep only digits, drop a leading `00`, replace one leading `0` by the
country code, prepend the country code to short numbers that lack it,
then strip leading zeros (`replace(/^0+/, '')`).  The four rewrites are
sequential, as in the source. -/
def normalizePhone (raw : String) (defaultCountryCode : String) : String :=
  let cc := digitsOnly defaultCountryCode.toList
  let digits0 := digitsOnly raw.toList
  if digits0.isEmpty then ""
  else
    let digits1 := if beginsWith digits0 ['0', '0'] then digits0.drop 2 else digits0
    let digits2 :=
      if beginsWith digits1 ['0'] && !cc.isEmpty then cc ++ digits1.drop 1 else digits1
    let digits3 :=
      if !cc.isEmpty && !(beginsWith digits2 cc) && digits2.length ≤ 10 then
        cc ++ digits2
      else digits2
    String.mk (digits3.dropWhile (fun c => c == '0'))

/-- One element of the `targets[]` array of a campaign-create request:
a phone string plus its per-recipient variable map. -/
structure RawTarget where
  phone : String
  vars : List (String × String)
deriving DecidableEq, Repr

/-- One iteration of the `normalizeTargets` loop: keep the target with
its normalized phone when valid, otherwise bump the skipped counter. -/
def normalizeTargetsStep (cc : String) (acc : List RawTarget × Nat)
    (t : RawTarget) : List RawTarget × Nat :=
  let phone := normalizePhone t.phone cc
  if isLikelyValidPhone phone then
    (acc.1 ++ [{ phone := phone, vars := t.vars }], acc.2)
  else (acc.1, acc.2 + 1)

/-- `normalizeTargets(targets)` from `src/server.js`: normalize each
phone with the configured default country code, drop (and count) the ones
failing `isLikelyValidPhone`.  Returns the kept targets and the skipped
count. -/
def normalizeTargets (cc : String) (targets : List RawTarget) :
    List RawTarget × Nat :=
  targets.foldl (normalizeTargetsStep cc) ([], 0)

/-- The target-insert loop of `createCampaignRecord` on a freshly created
campaign: each `INSERT INTO campaign_targets` hits the
`UNIQUE(campaign_id, phone)` constraint exactly when the phone was
already inserted for this campaign; the constraint error is swallowed and
the row skipped.  Returns the inserted phones in order and their count. -/
def insertTargetLoop : List RawTarget → List String → Nat → List String × Nat
  | [], phones, inserted => (phones, inserted)
  | t :: ts, phones, inserted =>
    if phones.contains t.phone then insertTargetLoop ts phones inserted
    else insertTargetLoop ts (phones ++ [t.phone]) (inserted + 1)

/-- The outcome of `createCampaignRecord` (`src/server.js`): the final
`total_targets` stored on the campaign row (first written as the
normalized count, then overwritten with the inserted count inside the
same transaction), the reported counters, and the inserted phones. -/
structure CreateResult where
  total_targets : Nat
  inserted : Nat
  skipped_invalid : Nat
  duplicates : Nat
  targetPhones : List String
deriving DecidableEq, Repr

/-- `createCampaignRecord({name, template_name, language, targets, ...})`
from `src/server.js`, restricted to its data effects on a fresh campaign:
normalize/validate targets, throw when none survive (before the insert
transaction, so nothing is written), insert the campaign and the
non-duplicate target rows, overwrite `total_targets` with the inserted
count, and report `skipped_invalid` and `duplicates = normalized -
inserted` (clamped at zero).  Sender resolution (`ensureSender`) is
environment lookup plus a `senders` upsert and is not consulted by the
counters; it is omitted here.  The reported `duplicates` is forced
nonnegative in JS; with `Nat` subtraction the clamp is implicit. -/
def createCampaignRecord (cc : String) (targets : List RawTarget) :
    Except String CreateResult :=
  let norm := normalizeTargets cc targets
  if norm.1.isEmpty then
    Except.error "No hay destinatarios válidos para la campaña"
  else
    let ins := insertTargetLoop norm.1 [] 0
    Except.ok
      { total_targets := ins.2
        inserted := ins.2
        skipped_invalid := norm.2
        duplicates := norm.1.length - ins.2
        targetPhones := ins.1 }

/-- A provider error object inside a failed status callback
(`status.errors[i]`): optional `title` and `message` texts. -/
structure ProviderError where
  title : Option String
  message : Option String
deriving DecidableEq, Repr

/-- One entry of `value.statuses[]` in an inbound webhook delivery-status
callback: optional provider message id, the provider status word, the
optional error array, and the raw serialized payload that is logged. -/
structure StatusEvent where
  id : Option String
  status : String
  errors : Option (List ProviderError)
  raw : String
deriving DecidableEq, Repr

/-- `e.title || e.message` followed by `.filter(Boolean)`: pick the first
truthy (non-empty) text of an error object, if any. -/
def providerErrorText (e : ProviderError) : Option String :=
  match e.title with
  | some t => if t ≠ "" then some t else
      match e.message with
      | some m => if m ≠ "" then some m else none
      | none => none
  | none =>
      match e.message with
      | some m => if m ≠ "" then some m else none
      | none => none

/-- The `statusMap` object of the webhook handler: provider status word →
target status, `null` (`none`) when unmapped. -/
def statusMap (s : String) : Option TStatus :=
  if s = "sent" then some TStatus.sent
  else if s = "delivered" then some TStatus.delivered
  else if s = "read" then some TStatus.read
  else if s = "failed" then some TStatus.failed
  else none

/-- `recordEvent({waMessageId, type, payload})` from `src/server.js`:
append one row to `events`. -/
def recordEvent (now : Nat) (waMessageId : Option String) (type : String)
    (raw : String) (st : WorkerState) : WorkerState :=
  { st with events := st.events ++
      [({ wa_message_id := waMessageId, type := type, payload := raw,
          created_at := now } : EventRec)] }

/-- The body of the webhook handler's `for (const status of statuses)`
loop (`src/server.js`, `POST /webhooks/wa`): skip events with a falsy
message id, log every other event to `events` verbatim, look up the
target by provider message id, and — only when found — apply the mapped
status (with error-text collection on `failed`, a bare `updated_at` touch
when the status word is unmapped).  The CRM timeline notification is an
external side effect with no store mutation and is not represented. -/
def processStatusEvent (now : Nat) (st : WorkerState) (ev : StatusEvent) :
    WorkerState :=
  match ev.id with
  | none => st
  | some mid =>
    if mid = "" then st
    else
      let st1 := recordEvent now (some mid)
        (if ev.status = "" then "status" else ev.status) ev.raw st
      match findTargetByWaId st1.targets mid with
      | none => st1
      | some target =>
        match statusMap ev.status with
        | some TStatus.failed =>
          let errText :=
            match ev.errors with
            | some errs => String.intercalate "; " (errs.filterMap providerErrorText)
            | none => if ev.status = "" then "" else ev.status
          { st1 with
              targets := updateTargetRows target.id
                (fun t => { t with status := TStatus.failed,
                                   last_error := some (String.mk (errText.toList.take 300)),
                                   updated_at := now }) st1.targets }
        | some s =>
          { st1 with
              targets := updateTargetRows target.id
                (fun t => { t with status := s, updated_at := now }) st1.targets }
        | none =>
          { st1 with
              targets := updateTargetRows target.id
                (fun t => { t with updated_at := now }) st1.targets }

/-- Modelled from the spec: the number of body placeholder parameters a
message template requires (its highest placeholder index).  Template
bodies live at the provider and are never fetched or inspected by any
code under `src/`; this ghost field exists only to state the
placeholder-sufficiency scenario of the specification. -/
structure TemplateSpec where
  name : String
  requiredBodyParams : Nat
deriving DecidableEq, Repr

/-! ### Helper lemmas -/

/-- Membership in a conditional row rewrite: the element either is the
image of a matching row or is an untouched non-matching row. -/
theorem mem_map_ite {α : Type} {l : List α} {p : α → Bool} {g : α → α} {x : α}
    (hx : x ∈ l.map (fun a => if p a then g a else a)) :
    (∃ a, a ∈ l ∧ p a = true ∧ x = g a) ∨ (x ∈ l ∧ p x = false) := by
  rcases List.mem_map.mp hx with ⟨a, ha, hfa⟩
  by_cases hp : p a
  · exact Or.inl ⟨a, ha, hp, by simpa [hp] using hfa.symm⟩
  · refine Or.inr ?_
    have hxa : x = a := by simpa [hp] using hfa.symm
    subst hxa
    exact ⟨ha, by simpa using hp⟩

/-- A row of `updateTargetRows id f ts` that carries the rewritten id is
the image under `f` of a matching original row. -/
theorem updateTargetRows_mem {ts : List Target} {id : Nat} {f : Target → Target}
    {x : Target}
    (hx : x ∈ updateTargetRows id f ts) (hid : x.id = id) :
    ∃ t, t ∈ ts ∧ t.id = id ∧ x = f t := by
  rcases mem_map_ite hx with ⟨a, ha, hp, hxa⟩ | ⟨hmem, hp⟩
  · exact ⟨a, ha, by simpa using hp, hxa⟩
  · exact absurd hid (by simpa using hp)

/-- A row of `markDone id q` carrying the marked id has status `done`. -/
theorem markDone_mem {q : List QueueEntry} {id : Nat} {x : QueueEntry}
    (hx : x ∈ markDone id q) (hid : x.id = id) : x.status = QStatus.done := by
  rcases mem_map_ite hx with ⟨a, _, _, hxa⟩ | ⟨_, hp⟩
  · rw [hxa]
  · exact absurd hid (by simpa using hp)

/-! ### C2 -/

/-- C2: `mark_failed(id, backoff_ms)` on a queue entry with attempt count
`a` sets `attempts` to `a + 1`, requeues the entry (`status = queued`)
and sets `available_at = now + backoff_ms * min (a + 1) 10`; the retry
delay is monotonically non-decreasing in the attempt count and never
exceeds `10 * backoff_ms`. -/
theorem markFailed_backoff_spec (q : List QueueEntry) (now backoffMs id a : Nat)
    (hrow : ∃ row, q.find? (fun e => e.id == id) = some row ∧ row.attempts = a) :
    (∀ e ∈ markFailed now backoffMs id q, e.id = id →
       e.attempts = a + 1 ∧ e.status = QStatus.queued ∧
       e.available_at = now + backoffMs * min (a + 1) 10)
    ∧ (∀ a1 a2 : Nat, a1 ≤ a2 →
        backoffMs * min (a1 + 1) 10 ≤ backoffMs * min (a2 + 1) 10)
    ∧ backoffMs * min (a + 1) 10 ≤ 10 * backoffMs := by
  rcases hrow with ⟨row, hfind, hatt⟩
  refine ⟨?_, ?_, ?_⟩
  · intro e he hid
    unfold markFailed at he
    rw [hfind] at he
    rcases mem_map_ite he with ⟨x, _, _, hex⟩ | ⟨_, hp⟩
    · rw [hex]
      exact ⟨by simp [hatt], by simp, by simp [hatt]⟩
    · exact absurd hid (by simpa using hp)
  · intro a1 a2 h
    exact Nat.mul_le_mul_left backoffMs (by omega)
  · calc backoffMs * min (a + 1) 10 ≤ backoffMs * 10 :=
          Nat.mul_le_mul_left backoffMs (Nat.min_le_right _ _)
    _ = 10 * backoffMs := Nat.mul_comm _ _

/-- Concrete instantiation of the `mark_failed` theorem: a queued entry
with three prior attempts gets delay `5000 * min 4 10`, within the
`10 * 5000` cap. -/
theorem markFailed_backoff_spec_witness :
    5000 * min (3 + 1) 10 ≤ 10 * 5000 :=
  (markFailed_backoff_spec
    [{ id := 1, campaign_id := 1, target_id := 1, phone_id := "555", available_at := 0,
       attempts := 3, status := QStatus.queued }]
    1000 5000 1 3 ⟨_, rfl, rfl⟩).2.2

/-! ### Concrete demonstration data, used by the witness theorems -/

/-- A worker configuration with no delivery window restriction. -/
def demoCfg : WorkerCfg :=
  { batchSize := 20, window := "", defaultLang := "es", now := 5, hours := 12,
    minutes := 0 }

/-- The same configuration restricted to the `22:00-06:00` night window. -/
def demoCfgNight : WorkerCfg :=
  { demoCfg with window := "22:00-06:00" }

/-- A provider that accepts every send and returns one message id. -/
def demoProviderOk : Payload → Except String SendResp :=
  fun _ => Except.ok { messages := [some "wamid.demo"] }

/-- A paused campaign. -/
def demoCampaignPaused : Campaign :=
  { id := 7, template_name := "promo", language := "es", sender_phone_id := "555",
    status := CStatus.paused, total_targets := 1 }

/-- The same campaign, running. -/
def demoCampaignRunning : Campaign :=
  { demoCampaignPaused with status := CStatus.running }

/-- A target with a well-formed Peruvian phone number. -/
def demoTarget : Target :=
  { id := 3, campaign_id := 7, phone := "51918131082", vars := [],
    status := TStatus.queued, last_error := none, wa_message_id := none,
    updated_at := 0 }

/-- A target with a 5-digit phone, failing the `^\d{7,15}$` check. -/
def demoTargetBadPhone : Target :=
  { demoTarget with phone := "12345" }

/-- A claimed queue entry for the demo campaign/target pair. -/
def demoJob : QueueEntry :=
  { id := 9, campaign_id := 7, target_id := 3, phone_id := "555",
    available_at := 0, attempts := 0, status := QStatus.processing }

/-- Store: paused campaign, valid target, one claimed entry. -/
def demoStatePaused : WorkerState :=
  { campaigns := [demoCampaignPaused], targets := [demoTarget], messages := [],
    events := [], queue := [demoJob] }

/-- Store: running campaign, invalid-phone target, one claimed entry. -/
def demoStateBadPhone : WorkerState :=
  { campaigns := [demoCampaignRunning], targets := [demoTargetBadPhone],
    messages := [], events := [], queue := [demoJob] }

/-! ### C6 -/

/-- C6: a tick outside the configured delivery window performs no work —
the store is untouched and no provider call is issued; the window check
wraps past midnight when the end is earlier than the start, so with
window `"22:00-06:00"` a tick at 23:30 is inside the window and a tick at
12:00 is outside. -/
theorem tick_window_gate (cfg : WorkerCfg)
    (provider : Payload → Except String SendResp) (st : WorkerState)
    (hw : inWindow cfg.hours cfg.minutes cfg.window = false) :
    tick cfg provider st = (st, [])
    ∧ inWindow 23 30 "22:00-06:00" = true
    ∧ inWindow 12 0 "22:00-06:00" = false := by
  refine ⟨?_, by decide, by decide⟩
  unfold tick
  rw [hw]
  simp

/-- Concrete instantiation of the window gate: with window
`"22:00-06:00"`, a tick at 12:00 on a store holding one queued entry
returns the store unchanged with no provider calls. -/
theorem tick_window_gate_witness :
    tick demoCfgNight demoProviderOk demoStatePaused = (demoStatePaused, []) :=
  (tick_window_gate demoCfgNight demoProviderOk demoStatePaused (by decide)).1

/-! ### C5 -/

/-- C5: a claimed queue entry whose parent campaign is `paused`,
`canceled`, `done` or `error` is immediately marked `done`; no provider
call is issued for it and the targets, messages, campaigns and events
tables are left unchanged. -/
theorem tick_campaign_gate (cfg : WorkerCfg)
    (provider : Payload → Except String SendResp) (st : WorkerState)
    (job : QueueEntry) (camp : Campaign)
    (hc : findCampaign st job.campaign_id = some camp)
    (hs : camp.status = CStatus.paused ∨ camp.status = CStatus.canceled ∨
          camp.status = CStatus.done ∨ camp.status = CStatus.error) :
    (processJob cfg provider st job).2 = []
    ∧ (processJob cfg provider st job).1.targets = st.targets
    ∧ (processJob cfg provider st job).1.messages = st.messages
    ∧ (processJob cfg provider st job).1.campaigns = st.campaigns
    ∧ (processJob cfg provider st job).1.events = st.events
    ∧ (∀ e ∈ (processJob cfg provider st job).1.queue, e.id = job.id →
        e.status = QStatus.done) := by
  have hb : blockedCampaign camp.status = true := by
    rcases hs with h | h | h | h <;> simp [blockedCampaign, h]
  have hred : processJob cfg provider st job =
      ({ st with queue := markDone job.id st.queue }, []) := by
    unfold processJob
    rw [hc]
    simp [hb]
  rw [hred]
  exact ⟨rfl, rfl, rfl, rfl, rfl, fun e he hid => markDone_mem he hid⟩

/-- Concrete instantiation of the campaign gate: a paused campaign's
claimed queue entry produces no provider call. -/
theorem tick_campaign_gate_witness :
    (processJob demoCfg demoProviderOk demoStatePaused demoJob).2 = [] :=
  (tick_campaign_gate demoCfg demoProviderOk demoStatePaused demoJob
    demoCampaignPaused (by decide) (Or.inl (by decide))).1

/-! ### C4 -/

/-- C4: a claimed queue entry that reaches the phone check (campaign
present and not gated, target present) with a phone failing the
7-to-15-digit pattern gets its target set to `failed` with
`last_error = 'telefono_invalido'`, its queue entry marked `done` (not
requeued), and no provider call is issued; the messages log is untouched. -/
theorem tick_invalid_phone_spec (cfg : WorkerCfg)
    (provider : Payload → Except String SendResp) (st : WorkerState)
    (job : QueueEntry) (camp : Campaign) (target : Target)
    (hc : findCampaign st job.campaign_id = some camp)
    (hb : blockedCampaign camp.status = false)
    (ht : findTarget st job.target_id = some target)
    (hp : isLikelyValidPhone target.phone = false) :
    (processJob cfg provider st job).2 = []
    ∧ (∀ t ∈ (processJob cfg provider st job).1.targets, t.id = target.id →
        t.status = TStatus.failed ∧ t.last_error = some "telefono_invalido")
    ∧ (∀ e ∈ (processJob cfg provider st job).1.queue, e.id = job.id →
        e.status = QStatus.done)
    ∧ (processJob cfg provider st job).1.messages = st.messages := by
  have hred : processJob cfg provider st job =
      ({ st with
          targets := updateTargetRows target.id
            (fun t => { t with status := TStatus.failed,
                               last_error := some "telefono_invalido",
                               updated_at := cfg.now }) st.targets,
          queue := markDone job.id st.queue }, []) := by
    unfold processJob
    rw [hc]
    simp [hb, ht, hp]
  rw [hred]
  refine ⟨rfl, ?_, fun e he hid => markDone_mem he hid, rfl⟩
  intro t htmem hid
  rcases updateTargetRows_mem htmem hid with ⟨t0, _, _, ht0⟩
  rw [ht0]
  exact ⟨rfl, rfl⟩

/-- Concrete instantiation of the invalid-phone path: a 5-digit phone
yields no provider call. -/
theorem tick_invalid_phone_spec_witness :
    (processJob demoCfg demoProviderOk demoStateBadPhone demoJob).2 = [] :=
  (tick_invalid_phone_spec demoCfg demoProviderOk demoStateBadPhone demoJob
    demoCampaignRunning demoTargetBadPhone (by decide) (by decide) (by decide)
    (by decide)).1

/-! ### C3 -/

/-- A template whose body requires two placeholder parameters
(spec-modelled ghost data; see `TemplateSpec`). -/
def demoTemplateTwoParams : TemplateSpec :=
  { name := "promo", requiredBodyParams := 2 }

/-- A valid-phone target supplying only one template variable. -/
def demoTargetOneVar : Target :=
  { demoTarget with vars := [("1", "Ana")] }

/-- Store: running campaign, one-variable target, one claimed entry. -/
def demoStateOneVar : WorkerState :=
  { campaigns := [demoCampaignRunning], targets := [demoTargetOneVar],
    messages := [], events := [], queue := [demoJob] }

/-- Counterexample to C3: the template `promo` requires two body
placeholder parameters while the target supplies one variable, yet the
worker issues the provider call anyway (one HTTP call, not zero) and the
target leaves `queued` (it ends `sent` here).  No placeholder-count
validation exists anywhere under `src/`. -/
theorem dispatch_no_placeholder_check_counterexample :
    demoTemplateTwoParams.name = demoCampaignRunning.template_name
    ∧ demoTemplateTwoParams.requiredBodyParams = 2
    ∧ demoTargetOneVar.vars.length = 1
    ∧ (processJob demoCfg demoProviderOk demoStateOneVar demoJob).2.length = 1
    ∧ (processJob demoCfg demoProviderOk demoStateOneVar demoJob).1.targets.map
        Target.status = [TStatus.sent] := by
  refine ⟨rfl, rfl, rfl, ?_, ?_⟩ <;> decide

/-- C3 as amended: the worker performs no placeholder-count validation.
For every claimed entry that reaches the send step (campaign present and
not gated, target present, phone valid), and for any template requiring
strictly more body parameters than the target's variable map supplies,
the worker still issues exactly one HTTP call, whose body parameters are
exactly the variable values, and the target leaves `queued` (to `sent`
on provider success, `failed` on provider error). -/
theorem dispatch_sends_regardless_of_placeholders (cfg : WorkerCfg)
    (provider : Payload → Except String SendResp) (st : WorkerState)
    (job : QueueEntry) (camp : Campaign) (target : Target) (tpl : TemplateSpec)
    (hc : findCampaign st job.campaign_id = some camp)
    (hb : blockedCampaign camp.status = false)
    (ht : findTarget st job.target_id = some target)
    (hp : isLikelyValidPhone target.phone = true)
    (hshort : target.vars.length < tpl.requiredBodyParams) :
    (processJob cfg provider st job).2 =
      [{ phone_id := camp.sender_phone_id,
         toPhone := target.phone,
         template_name := camp.template_name,
         language := if camp.language = "" then cfg.defaultLang else camp.language,
         bodyParams := target.vars.map Prod.snd }]
    ∧ (∀ t ∈ (processJob cfg provider st job).1.targets, t.id = target.id →
        (t.status = TStatus.sent ∨ t.status = TStatus.failed)) := by
  unfold processJob
  rw [hc]
  simp only [hb, Bool.false_eq_true, if_false]
  rw [ht]
  simp only [hp, Bool.not_true, Bool.false_eq_true, if_false]
  cases hpr : provider
      { phone_id := camp.sender_phone_id,
        toPhone := target.phone,
        template_name := camp.template_name,
        language := if camp.language = "" then cfg.defaultLang else camp.language,
        bodyParams := target.vars.map Prod.snd } with
  | ok resp =>
    refine ⟨rfl, ?_⟩
    intro t htmem hid
    rcases updateTargetRows_mem htmem hid with ⟨t0, _, _, ht0⟩
    exact Or.inl (by rw [ht0])
  | error msg =>
    refine ⟨rfl, ?_⟩
    intro t htmem hid
    rcases updateTargetRows_mem htmem hid with ⟨t0, _, _, ht0⟩
    exact Or.inr (by rw [ht0])

/-- Concrete instantiation of the amended C3: with the two-parameter
template and a one-variable target, exactly one provider call is issued,
carrying the single supplied variable text. -/
theorem dispatch_sends_regardless_of_placeholders_witness :
    (processJob demoCfg demoProviderOk demoStateOneVar demoJob).2 =
      [{ phone_id := "555", toPhone := "51918131082", template_name := "promo",
         language := "es", bodyParams := ["Ana"] }] := by
  have h := (dispatch_sends_regardless_of_placeholders demoCfg demoProviderOk
    demoStateOneVar demoJob demoCampaignRunning demoTargetOneVar
    demoTemplateTwoParams (by decide) (by decide) (by decide) (by decide)
    (by decide)).1
  simpa using h

/-! ### C10 -/

/-- C10: when the provider call succeeds but the response carries no
`messages[0].id`, the worker still appends a Message Record, sets the
target to `sent` with a `NULL` `wa_message_id`, and marks the queue entry
`done`; the target is then unreachable by the webhook's
message-id lookup, so status-callback correlation is impossible for it. -/
theorem sent_without_message_id_spec (cfg : WorkerCfg)
    (provider : Payload → Except String SendResp) (st : WorkerState)
    (job : QueueEntry) (camp : Campaign) (target : Target) (resp : SendResp)
    (hc : findCampaign st job.campaign_id = some camp)
    (hb : blockedCampaign camp.status = false)
    (ht : findTarget st job.target_id = some target)
    (hp : isLikelyValidPhone target.phone = true)
    (hprov : ∀ p, provider p = Except.ok resp)
    (hid : waIdOf resp = none) :
    (processJob cfg provider st job).1.messages.length = st.messages.length + 1
    ∧ (∀ t ∈ (processJob cfg provider st job).1.targets, t.id = target.id →
        t.status = TStatus.sent ∧ t.wa_message_id = none)
    ∧ (∀ e ∈ (processJob cfg provider st job).1.queue, e.id = job.id →
        e.status = QStatus.done)
    ∧ (∀ mid : String, ∀ t,
        findTargetByWaId (processJob cfg provider st job).1.targets mid = some t →
        t.id ≠ target.id) := by
  unfold processJob
  rw [hc]
  simp only [hb, Bool.false_eq_true, if_false]
  rw [ht]
  simp only [hp, Bool.not_true, Bool.false_eq_true, if_false]
  rw [hprov]
  simp only [hid]
  have htar : ∀ t ∈ updateTargetRows target.id
      (fun t => { t with status := TStatus.sent, wa_message_id := none,
                         updated_at := cfg.now })
      (updateTargetRows target.id
        (fun t => { t with status := TStatus.sending, updated_at := cfg.now })
        st.targets),
      t.id = target.id → t.status = TStatus.sent ∧ t.wa_message_id = none := by
    intro t htmem hid2
    rcases updateTargetRows_mem htmem hid2 with ⟨t0, _, _, ht0⟩
    rw [ht0]
    exact ⟨rfl, rfl⟩
  refine ⟨by simp, htar, fun e he hid2 => markDone_mem he hid2, ?_⟩
  intro mid t hfind htid
  have hmem : t ∈ updateTargetRows target.id
      (fun t => { t with status := TStatus.sent, wa_message_id := none,
                         updated_at := cfg.now })
      (updateTargetRows target.id
        (fun t => { t with status := TStatus.sending, updated_at := cfg.now })
        st.targets) := List.mem_of_find?_eq_some hfind
  have hpred := List.find?_some hfind
  have hwa : t.wa_message_id = some mid := by simpa using hpred
  have := (htar t hmem htid).2
  rw [this] at hwa
  exact Option.noConfusion hwa

/-- A success response carrying one message object with no id. -/
def demoRespNoId : SendResp := { messages := [none] }

/-- Store: running campaign, valid target, one claimed entry. -/
def demoStateOk : WorkerState :=
  { campaigns := [demoCampaignRunning], targets := [demoTarget], messages := [],
    events := [], queue := [demoJob] }

/-- Concrete instantiation of C10: a provider success with no message id
still produces exactly one Message Record. -/
theorem sent_without_message_id_spec_witness :
    (processJob demoCfg (fun _ => Except.ok demoRespNoId) demoStateOk
      demoJob).1.messages.length = 0 + 1 :=
  (sent_without_message_id_spec demoCfg (fun _ => Except.ok demoRespNoId)
    demoStateOk demoJob demoCampaignRunning demoTarget demoRespNoId
    (by decide) (by decide) (by decide) (by decide) (fun _ => rfl)
    (by decide)).1

/-! ### C9 -/

/-- C9: a delivery-status event whose provider message id matches no
target is appended verbatim to the `events` log, and the targets,
campaigns, messages and queue tables are left completely unchanged. -/
theorem webhook_unknown_id_frame (now : Nat) (st : WorkerState)
    (ev : StatusEvent) (mid : String)
    (hid : ev.id = some mid) (hmid : mid ≠ "")
    (hno : findTargetByWaId st.targets mid = none) :
    (processStatusEvent now st ev).events =
      st.events ++
        [({ wa_message_id := some mid,
            type := if ev.status = "" then "status" else ev.status,
            payload := ev.raw, created_at := now } : EventRec)]
    ∧ (processStatusEvent now st ev).targets = st.targets
    ∧ (processStatusEvent now st ev).campaigns = st.campaigns
    ∧ (processStatusEvent now st ev).messages = st.messages
    ∧ (processStatusEvent now st ev).queue = st.queue := by
  have hred : processStatusEvent now st ev =
      recordEvent now (some mid) (if ev.status = "" then "status" else ev.status)
        ev.raw st := by
    unfold processStatusEvent
    rw [hid]
    simp only [hmid, if_false]
    have : findTargetByWaId
        (recordEvent now (some mid)
          (if ev.status = "" then "status" else ev.status) ev.raw st).targets mid =
        none := by
      simpa [recordEvent] using hno
    rw [this]
  rw [hred]
  exact ⟨rfl, rfl, rfl, rfl, rfl⟩

/-- The demo target after a successful send with a known message id. -/
def demoTargetSent : Target :=
  { demoTarget with status := TStatus.sent, wa_message_id := some "wamid.known" }

/-- Store: one sent target correlated to `wamid.known`. -/
def demoStateSent : WorkerState :=
  { campaigns := [demoCampaignRunning], targets := [demoTargetSent],
    messages := [], events := [], queue := [] }

/-- A `delivered` callback whose message id matches no stored target. -/
def demoUnknownEvent : StatusEvent :=
  { id := some "wamid.unknown", status := "delivered", errors := none,
    raw := "raw-callback-body" }

/-- Concrete instantiation of C9: an unknown-id `delivered` callback on a
store with one sent target leaves the targets table unchanged. -/
theorem webhook_unknown_id_frame_witness :
    (processStatusEvent 50 demoStateSent demoUnknownEvent).targets =
      demoStateSent.targets :=
  (webhook_unknown_id_frame 50 demoStateSent demoUnknownEvent
    "wamid.unknown" rfl (by decide) (by decide)).2.1

/-! ### C7 -/

/-- The predicate "this submitted target survives normalization and the
validity check". -/
def keepsTarget (cc : String) (t : RawTarget) : Bool :=
  isLikelyValidPhone (normalizePhone t.phone cc)

/-- Closed form of the `normalizeTargets` fold relative to any
accumulator. -/
theorem normalizeTargets_fold (cc : String) (ts : List RawTarget) :
    ∀ acc : List RawTarget × Nat,
      ts.foldl (normalizeTargetsStep cc) acc =
        (acc.1 ++ (ts.filter (keepsTarget cc)).map
            (fun t => { phone := normalizePhone t.phone cc, vars := t.vars }),
         acc.2 + (ts.filter (fun t => !keepsTarget cc t)).length) := by
  induction ts with
  | nil => intro acc; simp
  | cons t ts ih =>
    intro acc
    rw [List.foldl_cons, ih]
    by_cases h : keepsTarget cc t = true
    · have h' : isLikelyValidPhone (normalizePhone t.phone cc) = true := h
      simp [normalizeTargetsStep, h', List.filter_cons, h]
    · have h'' : keepsTarget cc t = false := by
        rw [Bool.eq_false_iff]; exact h
      have h' : isLikelyValidPhone (normalizePhone t.phone cc) = false := h''
      simp [normalizeTargetsStep, h', List.filter_cons, h'']
      omega

/-- `normalizeTargets` keeps exactly the valid targets (normalized, in
order) and counts exactly the invalid ones. -/
theorem normalizeTargets_spec (cc : String) (ts : List RawTarget) :
    (normalizeTargets cc ts).1 =
      (ts.filter (keepsTarget cc)).map
        (fun t => { phone := normalizePhone t.phone cc, vars := t.vars })
    ∧ (normalizeTargets cc ts).2 =
      (ts.filter (fun t => !keepsTarget cc t)).length := by
  unfold normalizeTargets
  rw [normalizeTargets_fold]
  simp

/-- Invariant of the duplicate-skipping insert loop: starting from a
duplicate-free already-inserted phone list whose length is the running
insert counter, the loop keeps the phone list duplicate-free, keeps the
counter equal to its length, and inserts at most one row per remaining
target. -/
theorem insertTargetLoop_invariant (l : List RawTarget) :
    ∀ (p : List String) (i : Nat), p.Nodup → i = p.length →
      (insertTargetLoop l p i).1.Nodup
      ∧ (insertTargetLoop l p i).2 = (insertTargetLoop l p i).1.length
      ∧ i ≤ (insertTargetLoop l p i).2
      ∧ (insertTargetLoop l p i).2 ≤ i + l.length := by
  induction l with
  | nil =>
    intro p i hnd hlen
    exact ⟨hnd, by simpa [insertTargetLoop] using hlen, Nat.le_refl _, by simp [insertTargetLoop]⟩
  | cons t ts ih =>
    intro p i hnd hlen
    by_cases hc : p.contains t.phone = true
    · have hred : insertTargetLoop (t :: ts) p i = insertTargetLoop ts p i := by
        simp only [insertTargetLoop]
        rw [if_pos hc]
      rw [hred]
      rcases ih p i hnd hlen with ⟨h1, h2, h3, h4⟩
      exact ⟨h1, h2, h3, by simpa using Nat.le_trans h4 (by omega)⟩
    · have hred : insertTargetLoop (t :: ts) p i =
          insertTargetLoop ts (p ++ [t.phone]) (i + 1) := by
        simp only [insertTargetLoop]
        rw [if_neg hc]
      rw [hred]
      have hnotmem : t.phone ∉ p := by
        intro hmem
        exact hc (List.elem_eq_true_of_mem hmem)
      have hnd' : (p ++ [t.phone]).Nodup := by
        simp [List.nodup_append, hnd, hnotmem]
      have hlen' : i + 1 = (p ++ [t.phone]).length := by
        simp [hlen]
      rcases ih (p ++ [t.phone]) (i + 1) hnd' hlen' with ⟨h1, h2, h3, h4⟩
      exact ⟨h1, h2, Nat.le_trans (Nat.le_succ i) h3, by simpa using Nat.le_trans h4 (by omega)⟩

/-- C7 as amended: campaign creation with `N` valid and `M` invalid
submitted phones rejects the whole operation with an error exactly when
`N = 0` (nothing is written); on success it reports
`skipped_invalid = M`; duplicate `(campaign, phone)` pairs among the `N`
are silently skipped and counted in the reported `duplicates`, with
`inserted + duplicates = N`; the stored `total_targets` equals `inserted`
(that is, `N` minus the duplicates — not `N` itself); and the inserted
rows are duplicate-free and number `inserted`. -/
theorem createCampaign_counts (cc : String) (targets : List RawTarget) :
    ((targets.filter (keepsTarget cc)).length = 0 →
      createCampaignRecord cc targets =
        Except.error "No hay destinatarios válidos para la campaña")
    ∧ (0 < (targets.filter (keepsTarget cc)).length →
        ∀ e, createCampaignRecord cc targets ≠ Except.error e)
    ∧ (∀ r, createCampaignRecord cc targets = Except.ok r →
        r.skipped_invalid = (targets.filter (fun t => !keepsTarget cc t)).length
        ∧ r.total_targets = r.inserted
        ∧ r.inserted + r.duplicates = (targets.filter (keepsTarget cc)).length
        ∧ r.targetPhones.Nodup
        ∧ r.targetPhones.length = r.inserted) := by
  rcases normalizeTargets_spec cc targets with ⟨h1, h2⟩
  have hlen1 : (normalizeTargets cc targets).1.length =
      (targets.filter (keepsTarget cc)).length := by
    rw [h1, List.length_map]
  refine ⟨?_, ?_, ?_⟩
  · intro hzero
    unfold createCampaignRecord
    have : (normalizeTargets cc targets).1.isEmpty = true := by
      rw [List.isEmpty_iff_length_eq_zero, hlen1]
      exact hzero
    simp [this]
  · intro hpos e
    have hne : (normalizeTargets cc targets).1.isEmpty = false := by
      rw [Bool.eq_false_iff]
      intro habs
      rw [List.isEmpty_iff_length_eq_zero, hlen1] at habs
      omega
    unfold createCampaignRecord
    simp [hne]
  · intro r hr
    rcases insertTargetLoop_invariant (normalizeTargets cc targets).1 [] 0
      List.nodup_nil rfl with ⟨hnd, hcnt, _, hub⟩
    unfold createCampaignRecord at hr
    by_cases hne : (normalizeTargets cc targets).1.isEmpty
    · simp [hne] at hr
    · simp only [hne, Bool.false_eq_true, if_false, Except.ok.injEq] at hr
      subst hr
      refine ⟨h2.symm ▸ rfl, rfl, ?_, hnd, hcnt.symm⟩
      dsimp only
      rw [← hlen1]
      simp only [Nat.zero_add] at hub
      omega

/-- The mixed two-target list: one valid phone, one invalid. -/
def demoMixedTargets : List RawTarget :=
  [{ phone := "+51918131082", vars := [] }, { phone := "123", vars := [] }]

/-- Concrete instantiation of the amended C7: one valid plus one invalid
phone gives `skipped_invalid = 1` on the returned record. -/
theorem createCampaign_counts_witness :
    ({ total_targets := 1, inserted := 1, skipped_invalid := 1, duplicates := 0,
       targetPhones := ["51918131082"] } : CreateResult).skipped_invalid =
      (demoMixedTargets.filter (fun t => !keepsTarget "51" t)).length :=
  ((createCampaign_counts "51" demoMixedTargets).2.2 _ rfl).1

/-- The two-target list of the duplicate-normalization scenario:
`"+51918131082"` and `"918131082"`. -/
def scenarioTargets : List RawTarget :=
  [{ phone := "+51918131082", vars := [] }, { phone := "918131082", vars := [] }]

/-- Counterexample to C7 as stated: with country code `51`, both
scenario phones pass validation (`N = 2`, `M = 0`), but the stored
`total_targets` is `1`, not `N = 2` — the second row is a silently
skipped duplicate, and `total_targets` is overwritten with the inserted
count. -/
theorem createCampaign_total_targets_counterexample :
    (scenarioTargets.filter (keepsTarget "51")).length = 2
    ∧ (scenarioTargets.filter (fun t => !keepsTarget "51" t)).length = 0
    ∧ createCampaignRecord "51" scenarioTargets =
        Except.ok { total_targets := 1, inserted := 1, skipped_invalid := 0,
                    duplicates := 1, targetPhones := ["51918131082"] } := by
  refine ⟨by decide, by decide, rfl⟩

/-! ### C8 -/

/-- Counterexample to C8 as stated: under the code's default
configuration (`DEFAULT_COUNTRY_CODE` unset, hence empty), the two
scenario inputs normalize to different values, and campaign creation
inserts both rows (`inserted = 2`, no duplicate) rather than one. -/
theorem normalizePhone_scenario_counterexample :
    normalizePhone "+51918131082" "" = "51918131082"
    ∧ normalizePhone "918131082" "" = "918131082"
    ∧ normalizePhone "+51918131082" "" ≠ normalizePhone "918131082" ""
    ∧ createCampaignRecord "" scenarioTargets =
        Except.ok { total_targets := 2, inserted := 2, skipped_invalid := 0,
                    duplicates := 0,
                    targetPhones := ["51918131082", "918131082"] } := by
  refine ⟨by decide, by decide, by decide, rfl⟩

/-- C8 as amended: only when the default country code is configured as
`51` do `"+51918131082"` and `"918131082"` normalize to the same value
(`"51918131082"`); a campaign created with exactly those two targets then
inserts one row, counting the second as a duplicate (`inserted = 1`,
`duplicates = 1`). -/
theorem normalizePhone_scenario_cc51 :
    normalizePhone "+51918131082" "51" = "51918131082"
    ∧ normalizePhone "918131082" "51" = "51918131082"
    ∧ createCampaignRecord "51" scenarioTargets =
        Except.ok { total_targets := 1, inserted := 1, skipped_invalid := 0,
                    duplicates := 1, targetPhones := ["51918131082"] } := by
  refine ⟨by decide, by decide, rfl⟩

/-! ### C1 -/

/-- `eligibleEntry` unfolded to a proposition. -/
theorem eligibleEntry_iff (now : Nat) (e : QueueEntry) :
    eligibleEntry now e = true ↔
      e.status = QStatus.queued ∧ e.available_at ≤ now := by
  simp [eligibleEntry]

/-- The selected rows of `fetchBatch`, unfolded. -/
theorem fetchBatch_fst (now limit : Nat) (q : List QueueEntry) :
    (fetchBatch now limit q).1 =
      (sortById (q.filter (eligibleEntry now))).take limit := rfl

/-- The updated queue of `fetchBatch`, unfolded. -/
theorem fetchBatch_snd (now limit : Nat) (q : List QueueEntry) :
    (fetchBatch now limit q).2 =
      q.map (fun e =>
        if (fetchBatch now limit q).1.any (fun r => r.id == e.id) then
          { e with status := QStatus.processing }
        else e) := rfl

/-- `sortById` really sorts by ascending id. -/
theorem sortById_sorted (l : List QueueEntry) :
    (sortById l).Pairwise (fun a b => a.id ≤ b.id) := by
  haveI : IsTotal QueueEntry (fun a b => a.id ≤ b.id) :=
    ⟨fun a b => Nat.le_total a.id b.id⟩
  haveI : IsTrans QueueEntry (fun a b => a.id ≤ b.id) :=
    ⟨fun _ _ _ hab hbc => Nat.le_trans hab hbc⟩
  exact List.sorted_insertionSort _ l

/-- Membership in `sortById` is membership in the input. -/
theorem sortById_mem {l : List QueueEntry} {e : QueueEntry} :
    e ∈ sortById l ↔ e ∈ l :=
  (List.perm_insertionSort _ l).mem_iff

/-- C1: `fetch_batch(limit)` selects exactly the first (by ascending id)
at most `limit` entries with `status = queued` and `available_at ≤ now`:
every returned row is such an entry, at most `limit` are returned in
ascending id order, and an eligible entry that is not returned can only
be outrun by a full batch of ids no larger than its own.  In the same
transaction every returned entry's row is set to `processing` and every
other row is written back unchanged.  Consequently the claim is
exclusive: a second `fetch_batch` on the updated queue (at any time and
limit) can never return an entry with the id of an already-claimed one
until it is re-queued. -/
theorem fetchBatch_claim (q : List QueueEntry) (now limit : Nat) :
    (∀ r ∈ (fetchBatch now limit q).1,
        r ∈ q ∧ r.status = QStatus.queued ∧ r.available_at ≤ now)
    ∧ (fetchBatch now limit q).1.length ≤ limit
    ∧ (fetchBatch now limit q).1.Pairwise (fun a b => a.id ≤ b.id)
    ∧ (∀ e ∈ q, e.status = QStatus.queued → e.available_at ≤ now →
        e ∉ (fetchBatch now limit q).1 →
        (fetchBatch now limit q).1.length = limit
        ∧ ∀ r ∈ (fetchBatch now limit q).1, r.id ≤ e.id)
    ∧ (fetchBatch now limit q).2.length = q.length
    ∧ (∀ i : Nat, ∀ e, q[i]? = some e →
        ((∃ r ∈ (fetchBatch now limit q).1, r.id = e.id) →
          (fetchBatch now limit q).2[i]? =
            some { e with status := QStatus.processing })
        ∧ ((∀ r ∈ (fetchBatch now limit q).1, r.id ≠ e.id) →
          (fetchBatch now limit q).2[i]? = some e))
    ∧ (∀ now2 limit2,
        ∀ r2 ∈ (fetchBatch now2 limit2 (fetchBatch now limit q).2).1,
        ∀ r ∈ (fetchBatch now limit q).1, r2.id ≠ r.id) := by
  refine ⟨?_, ?_, ?_, ?_, ?_, ?_, ?_⟩
  · intro r hr
    rw [fetchBatch_fst] at hr
    have hs : r ∈ sortById (q.filter (eligibleEntry now)) :=
      List.mem_of_mem_take hr
    have hf : r ∈ q.filter (eligibleEntry now) := sortById_mem.mp hs
    rcases List.mem_filter.mp hf with ⟨hq, helig⟩
    rcases (eligibleEntry_iff now r).mp helig with ⟨h1, h2⟩
    exact ⟨hq, h1, h2⟩
  · rw [fetchBatch_fst, List.length_take]
    exact Nat.min_le_left _ _
  · rw [fetchBatch_fst]
    exact List.Pairwise.sublist (List.take_sublist _ _) (sortById_sorted _)
  · intro e hq hstat havail hnot
    have helig : eligibleEntry now e = true :=
      (eligibleEntry_iff now e).mpr ⟨hstat, havail⟩
    have hf : e ∈ q.filter (eligibleEntry now) := List.mem_filter.mpr ⟨hq, helig⟩
    have hs : e ∈ sortById (q.filter (eligibleEntry now)) := sortById_mem.mpr hf
    rw [fetchBatch_fst] at hnot
    have hsplit := List.take_append_drop limit (sortById (q.filter (eligibleEntry now)))
    rw [← hsplit] at hs
    rcases List.mem_append.mp hs with h | hdrop
    · exact absurd h hnot
    · have hne : (sortById (q.filter (eligibleEntry now))).drop limit ≠ [] :=
        List.ne_nil_of_mem hdrop
      have hlim : limit < (sortById (q.filter (eligibleEntry now))).length := by
        by_contra hle
        exact hne (List.drop_eq_nil_of_le (by omega))
      constructor
      · rw [fetchBatch_fst, List.length_take]
        omega
      · intro r hr
        have hpair := sortById_sorted (q.filter (eligibleEntry now))
        rw [← hsplit] at hpair
        rcases List.pairwise_append.mp hpair with ⟨_, _, hcross⟩
        rw [fetchBatch_fst] at hr
        exact hcross r hr e hdrop
  · rw [fetchBatch_snd, List.length_map]
  · intro i e hqe
    constructor
    · rintro ⟨r, hr, hid⟩
      have hany : (fetchBatch now limit q).1.any (fun r => r.id == e.id) = true :=
        List.any_eq_true.mpr ⟨r, hr, by simp [hid]⟩
      conv_lhs => rw [fetchBatch_snd, List.getElem?_map, hqe]
      simp only [Option.map_some']
      rw [hany]
      simp
    · intro hne
      have hany : (fetchBatch now limit q).1.any (fun r => r.id == e.id) = false := by
        rw [Bool.eq_false_iff]
        intro habs
        rcases List.any_eq_true.mp habs with ⟨r, hr, hbeq⟩
        exact hne r hr (by simpa using hbeq)
      conv_lhs => rw [fetchBatch_snd, List.getElem?_map, hqe]
      simp only [Option.map_some']
      rw [hany]
      simp
  · intro now2 limit2 r2 hr2 r hr heq
    have hqueued : r2.status = QStatus.queued := by
      rw [fetchBatch_fst] at hr2
      have hs := sortById_mem.mp (List.mem_of_mem_take hr2)
      rcases List.mem_filter.mp hs with ⟨_, helig⟩
      exact ((eligibleEntry_iff now2 r2).mp helig).1
    have hmem2 : r2 ∈ (fetchBatch now limit q).2 := by
      rw [fetchBatch_fst] at hr2
      have hs := sortById_mem.mp (List.mem_of_mem_take hr2)
      exact (List.mem_filter.mp hs).1
    rw [fetchBatch_snd] at hmem2
    rcases List.mem_map.mp hmem2 with ⟨e0, he0, hfe0⟩
    by_cases hany : (fetchBatch now limit q).1.any (fun r' => r'.id == e0.id) = true
    · rw [if_pos hany] at hfe0
      rw [← hfe0] at hqueued
      exact QStatus.noConfusion hqueued
    · rw [if_neg hany] at hfe0
      apply hany
      refine List.any_eq_true.mpr ⟨r, hr, ?_⟩
      have : e0.id = r.id := by rw [hfe0]; exact heq
      simp [this]

/-- A three-entry queue: two entries already available, one scheduled in
the future. -/
def demoQueue : List QueueEntry :=
  [{ id := 1, campaign_id := 7, target_id := 3, phone_id := "555",
     available_at := 0, attempts := 0, status := QStatus.queued },
   { id := 2, campaign_id := 7, target_id := 4, phone_id := "555",
     available_at := 50, attempts := 0, status := QStatus.queued },
   { id := 3, campaign_id := 7, target_id := 5, phone_id := "555",
     available_at := 1000, attempts := 0, status := QStatus.queued }]

/-- Concrete instantiation of C1: claiming from the demo queue at time
100 marks the first entry `processing` in the stored table. -/
theorem fetchBatch_claim_witness :
    (fetchBatch 100 2 demoQueue).2[0]? =
      some { id := 1, campaign_id := 7, target_id := 3, phone_id := "555",
             available_at := 0, attempts := 0, status := QStatus.processing } :=
  ((fetchBatch_claim demoQueue 100 2).2.2.2.2.2.1 0
      { id := 1, campaign_id := 7, target_id := 3, phone_id := "555",
        available_at := 0, attempts := 0, status := QStatus.queued }
      (by decide)).1
    ⟨{ id := 1, campaign_id := 7, target_id := 3, phone_id := "555",
       available_at := 0, attempts := 0, status := QStatus.queued },
     by decide, rfl⟩

end WaB24
